import Mathlib

/-!
Shallow embedding of `Server/app.py` (breast-cancer classifier Flask app).

Dataframe cells and JSON scalars are modelled explicitly; pandas numeric
coercion (`pd.to_numeric`) is modelled by an executable decimal parser;
machine floats of the 1–10 feature domain are modelled as `Rat`
(`none : Option Rat` stands for NaN / missing).  The model bundle
(imputer, scaler, classifier) is an opaque pickle artifact, so it is a
parameter: a structure of functions, exactly as the handler uses it.
-/

namespace App

/-- A JSON scalar, as the `/predict` interface receives feature values
(`number | string`, plus `null`). -/
inductive Json where
  | null : Json
  | num (q : Rat) : Json
  | str (s : String) : Json
deriving DecidableEq, Repr

/-- One cell of the CSV dataframe: a number, a raw string, or NaN. -/
inductive Cell where
  | num (q : Rat) : Cell
  | str (s : String) : Cell
  | na : Cell
deriving DecidableEq, Repr

/-- A dataframe, column-oriented: named columns of cells. -/
abbrev Table := List (String × List Cell)

/-- `mapM` over `Option`, written recursively so proofs can follow it:
`none` as soon as one element fails. -/
def mapMO {α β : Type} (g : α → Option β) : List α → Option (List β)
  | [] => some []
  | a :: as =>
    match g a, mapMO g as with
    | some b, some bs => some (b :: bs)
    | _, _ => none

/-- Digits of a decimal literal to a natural number. -/
def digitsToNat (cs : List Char) : Nat :=
  cs.foldl (fun a c => a * 10 + (c.toNat - 48)) 0

/-- Parse an unsigned decimal literal (`"5"`, `"5.25"`, `".5"`, `"5."`),
as Python float parsing accepts inside `pd.to_numeric`. -/
def parseUnsigned (cs : List Char) : Option Rat :=
  if cs.contains '.' then
    let intPart := cs.takeWhile (· ≠ '.')
    let fracPart := (cs.dropWhile (· ≠ '.')).drop 1
    if fracPart.contains '.' then none
    else if intPart.isEmpty && fracPart.isEmpty then none
    else if intPart.all Char.isDigit && fracPart.all Char.isDigit then
      some ((digitsToNat intPart : Rat)
        + (digitsToNat fracPart : Rat) / ((10 : Rat) ^ fracPart.length))
    else none
  else if cs.all Char.isDigit && !cs.isEmpty then
    some (digitsToNat cs : Rat)
  else none

/-- Strip leading and trailing whitespace (Python float parsing does). -/
def trimChars (cs : List Char) : List Char :=
  ((cs.dropWhile Char.isWhitespace).reverse.dropWhile Char.isWhitespace).reverse

/-- Parse a (possibly signed, whitespace-trimmed) numeric string;
`none` models a failed parse (NaN under `errors="coerce"`). -/
def parseNum (s : String) : Option Rat :=
  match trimChars s.data with
  | '-' :: rest => (parseUnsigned rest).map (fun q => -q)
  | '+' :: rest => parseUnsigned rest
  | cs => parseUnsigned cs

/-- `pd.to_numeric(·, errors="coerce")` on one cell. -/
def coerceCell : Cell → Option Rat
  | .num q => some q
  | .str s => parseNum s
  | .na => none

/-- The model bundle unpickled at startup (`bundle["selected_features"]`,
`bundle["imputer"]`, `bundle["scaler"]`, `bundle["model"]`).  The pickle
artifact itself is outside the repository, so the three fitted
transforms are opaque functions, used exactly as `predict` calls them
(`IMPUTER.transform`, `SCALER.transform`, `int(MODEL.predict(·)[0])`). -/
structure Bundle where
  selected_features : List String
  imputer : List Rat → List Rat
  scaler : List Rat → List Rat
  model : List Rat → Int

/-- The request body reaching `predict`, after
`request.get_json(silent=True) or {}` and `.get("features", {})`:
no/unparseable JSON, a JSON object without a `"features"` key, or a
`"features"` object mapping names to JSON scalars. -/
inductive Body where
  | absent : Body
  | noFeatures : Body
  | withFeatures (feats : List (String × Json)) : Body

/-- `feats = (request.get_json(silent=True) or {}).get("features", {})`. -/
def extractFeats : Body → List (String × Json)
  | .absent => []
  | .noFeatures => []
  | .withFeatures m => m

/-- `val is None or val == ""` on the looked-up value (`None` stands both
for an absent key and for JSON `null`). -/
def isMissingVal : Option Json → Bool
  | none => true
  | some .null => true
  | some (.str s) => s == ""
  | some (.num _) => false

/-- `pd.to_numeric` applied to the row value of one feature
(`None` coerces to NaN). -/
def coerceJson : Option Json → Option Rat
  | some (.num q) => some q
  | some (.str s) => parseNum s
  | some .null => none
  | none => none

/-- The `missing` list `predict` accumulates over `SEL`. -/
def missingOf (sel : List String) (feats : List (String × Json)) : List String :=
  sel.filter (fun f => isMissingVal (feats.lookup f))

/-- The one-row frame `X` after the per-column `pd.to_numeric` loop:
each required feature paired with its coerced value. -/
def coercedRow (sel : List String) (feats : List (String × Json)) :
    List (String × Option Rat) :=
  sel.map (fun f => (f, coerceJson (feats.lookup f)))

/-- `bad_cols`: the features whose coerced value is NaN. -/
def badOf (sel : List String) (feats : List (String × Json)) : List String :=
  ((coercedRow sel feats).filter (fun p => p.2.isNone)).map Prod.fst

/-- The numeric row handed to the transforms (every entry is `some` once
`badOf` is empty; `getD 0` is the harmless default in that branch). -/
def rowVals (sel : List String) (feats : List (String × Json)) : List Rat :=
  (coercedRow sel feats).map (fun p => p.2.getD 0)

/-- Outcome of `POST /predict`: the two structured 400 errors or the 200
payload `{prediction, label, used_features}`. -/
inductive PredictResult where
  | missingFeatures (fields : List String) : PredictResult
  | invalidValues (fields : List String) : PredictResult
  | ok (prediction : Int) (label : String) (used_features : List String) : PredictResult
deriving DecidableEq, Repr

/-- HTTP status of each `predict` outcome. -/
def PredictResult.status : PredictResult → Nat
  | .missingFeatures _ => 400
  | .invalidValues _ => 400
  | .ok _ _ _ => 200

/-- The `/predict` handler: collect missing fields over `SEL`, fail on
any; coerce every value, fail on any NaN; otherwise impute → scale →
classify and label the integer prediction. -/
def predict (b : Bundle) (body : Body) : PredictResult :=
  let feats := extractFeats body
  if (missingOf b.selected_features feats).isEmpty then
    if (badOf b.selected_features feats).isEmpty then
      let pred := b.model (b.scaler (b.imputer (rowVals b.selected_features feats)))
      .ok pred (if pred = 1 then "Malignant" else "Benign") b.selected_features
    else .invalidValues (badOf b.selected_features feats)
  else .missingFeatures (missingOf b.selected_features feats)

/-! ## Dataset loader (`load_and_clean_df`) -/

/-- Whether the dataframe has a column of that name. -/
def hasCol (df : Table) (c : String) : Bool :=
  (df.lookup c).isSome

/-- `df.drop(columns=[c])`. -/
def dropCol (df : Table) (c : String) : Table :=
  df.filter (fun p => p.1 ≠ c)

/-- `.replace("?", np.nan)` on one cell of the `bare_nuclei` column. -/
def replaceQuestion : Cell → Cell
  | .str s => if s = "?" then .na else .str s
  | c => c

/-- `pd.to_numeric` with default `errors="raise"` on one cell: a string
that fails to parse raises (modelled as `none`). -/
def toNumericStrict : Cell → Option Cell
  | .num q => some (.num q)
  | .str s => (parseNum s).map .num
  | .na => some .na

/-- The `bare_nuclei` column after
`pd.to_numeric(df["bare_nuclei"].replace("?", np.nan))`. -/
def cleanBareNuclei (cs : List Cell) : Option (List Cell) :=
  mapMO toNumericStrict (cs.map replaceQuestion)

/-- One column through `load_and_clean_df`: only `bare_nuclei` is
touched. -/
def cleanColumn (p : String × List Cell) : Option (String × List Cell) :=
  if p.1 = "bare_nuclei" then (cleanBareNuclei p.2).map (fun cs => (p.1, cs))
  else some p

/-- `load_and_clean_df`: replace the `"?"` sentinel in `bare_nuclei`
with NaN and coerce that column to numeric (raising on other bad
strings), then drop the `ID` column when present; every other column is
passed through untouched.  `none` models the raised coercion error. -/
def load_and_clean_df (df : Table) : Option Table :=
  match mapMO cleanColumn df with
  | none => none
  | some df1 => some (if hasCol df1 "ID" then dropCol df1 "ID" else df1)

/-! ## `/model-info` (`model_info`) -/

/-- Insert into an ascending list (for the pandas median). -/
def insertSorted (x : Rat) : List Rat → List Rat
  | [] => [x]
  | y :: ys => if x ≤ y then x :: y :: ys else y :: insertSorted x ys

/-- Insertion sort (ascending). -/
def sortRats (xs : List Rat) : List Rat := xs.foldr insertSorted []

/-- pandas `.median()` over the non-NaN values: midpoint of the sorted
list, averaging the two middles when even; `none` (NaN) on the empty
list. -/
def median (xs : List Rat) : Option Rat :=
  let s := sortRats xs
  let n := s.length
  if n = 0 then none
  else if n % 2 = 1 then s.get? (n / 2)
  else do
    let a ← s.get? (n / 2 - 1)
    let b ← s.get? (n / 2)
    pure ((a + b) / 2)

/-- `fillna(med)` on one cell of a coerced column. -/
def fillNaCell (med : Option Rat) : Option Rat → Option Rat
  | some q => some q
  | none => med

/-- One column of `X_sel` after `pd.to_numeric(errors="coerce")` and
`fillna(column median)`. -/
def imputeCol (cs : List Cell) : List (Option Rat) :=
  let coerced := cs.map coerceCell
  let med := median (coerced.filterMap id)
  coerced.map (fillNaCell med)

/-- pandas `.min()`: minimum over the non-NaN values, NaN when none. -/
def pdMin (xs : List (Option Rat)) : Option Rat :=
  match xs.filterMap id with
  | [] => none
  | v :: vs => some (vs.foldl min v)

/-- pandas `.max()`: maximum over the non-NaN values, NaN when none. -/
def pdMax (xs : List (Option Rat)) : Option Rat :=
  match xs.filterMap id with
  | [] => none
  | v :: vs => some (vs.foldl max v)

/-- `df["class"].map({2: 0, 4: 1})`: benign tag `some 0`, malignant
`some 1`, anything else NaN. -/
def classTag : Cell → Option Nat
  | .num 2 => some 0
  | .num 4 => some 1
  | _ => none

/-- Boolean row mask `y == k` (NaN compares unequal). -/
def classMask (ys : List (Option Nat)) (k : Nat) : List Bool :=
  ys.map (fun t => t == some k)

/-- Restrict a column to the rows a mask selects. -/
def maskCol (m : List Bool) (col : List (Option Rat)) : List (Option Rat) :=
  ((m.zip col).filter (fun p => p.1)).map Prod.snd

/-- Modelled from the spec: the seeded one-row draw
`sample(1, random_state=42)` of pandas, whose PRNG permutation is not in
the repository; it is abstracted as a fixed function of the seed and the
population size, which preserves exactly the property the spec states
(the draw is deterministic given the same dataset and seed; it raises on
an empty population). -/
def sampleIndex (seed n : Nat) : Option Nat :=
  if n = 0 then none else some (seed % n)

/-- `f.replace("_", " ")` for the one-character pattern: substitute
every underscore by a space. -/
def replaceChar (a b : Char) (s : String) : String :=
  String.mk (s.data.map (fun c => if c = a then b else c))

/-- `str.title()` after `replace("_", " ")`: capitalise the first letter
of each alphabetic run, lowercase the rest. -/
def titleCase (s : String) : String :=
  (s.data.foldl (fun (acc : String × Bool) c =>
    if c.isAlpha then
      (acc.1.push (if acc.2 then c.toLower else c.toUpper), true)
    else (acc.1.push c, false)) ("", false)).1

/-- The `FEATURE_HELP` table. -/
def FEATURE_HELP : List (String × String) :=
  [ ("clump_thickness", "How thick the cell clumps appear (1-10)."),
    ("uniformity_of_cell_size", "How uniform cell sizes look (1-10)."),
    ("uniformity_of_cell_shape", "How uniform cell shapes look (1-10)."),
    ("marginal_adhesion", "How strongly cells stick at the edges (1-10)."),
    ("single_epithelial_cell_size", "Size of single epithelial cells (1-10)."),
    ("bare_nuclei", "How many nuclei appear without surrounding cell material (1-10)."),
    ("bland_chromatin", "Texture/appearance of chromatin in the nucleus (1-10)."),
    ("normal_nucleoli", "Prominence of nucleoli inside the nucleus (1-10)."),
    ("mitoses", "How often cells appear to be dividing (1-10).") ]

/-- The JSON payload of a successful `GET /model-info` (the fields the
claims constrain; `min`/`max` and preset values are `Option Rat`, with
`none` standing for NaN). -/
structure ModelInfo where
  selected_features : List String
  ranges : List (String × (Option Rat × Option Rat))
  presets : List (String × List (String × Option Rat))
  labels : List (String × String)
  helptext : List (String × String)
deriving DecidableEq, Repr

/-- `X_sel = X[SEL]`: each selected feature paired with its column;
`none` (a `KeyError`) when one is absent. -/
def selectCols (sel : List String) (X : Table) : Option (List (String × List Cell)) :=
  mapMO (fun f => (X.lookup f).map (fun cs => (f, cs))) sel

/-- The `/model-info` handler over the cleaned dataframe: select `SEL`
columns, coerce to numeric, impute with per-column medians, report
per-feature min/max ranges, per-class median presets and one seeded
sample row per class.  `none` models the handler raising (missing
column, empty class for the sample draw). -/
def model_info (sel : List String) (df : Table) : Option ModelInfo :=
  match df.lookup "class" with
  | none => none
  | some clsCol =>
    match selectCols sel (dropCol df "class") with
    | none => none
    | some selCols =>
      let y := clsCol.map classTag
      let imputed := selCols.map (fun p => (p.1, imputeCol p.2))
      let mask0 := classMask y 0
      let mask1 := classMask y 1
      let n0 := (mask0.filter id).length
      let n1 := (mask1.filter id).length
      match sampleIndex 42 n0, sampleIndex 42 n1 with
      | some i0, some i1 =>
        some
          { selected_features := sel
            ranges := imputed.map (fun p => (p.1, (pdMin p.2, pdMax p.2)))
            presets :=
              [ ("benign_typical",
                  imputed.map (fun p => (p.1, median ((maskCol mask0 p.2).filterMap id)))),
                ("malignant_typical",
                  imputed.map (fun p => (p.1, median ((maskCol mask1 p.2).filterMap id)))),
                ("benign_sample",
                  imputed.map (fun p => (p.1, ((maskCol mask0 p.2).get? i0).join))),
                ("malignant_sample",
                  imputed.map (fun p => (p.1, ((maskCol mask1 p.2).get? i1).join))) ]
            labels := sel.map (fun f => (f, titleCase (replaceChar '_' ' ' f)))
            helptext := sel.map (fun f => (f, (FEATURE_HELP.lookup f).getD "Value from 1-10.")) }
      | _, _ => none

/-! ## `GET /health` -/

/-- The `/health` handler: ignores the bundle and the dataset, returns
200 with `{"status": "ok"}`. -/
def health (_bundle : Bundle) (_df : Table) : Nat × List (String × String) :=
  (200, [("status", "ok")])

/-! ## Static asset routes (`serve_index`, `serve_static_files`) -/

/-- The names `app.py` binds at module level: its `from`/`import`
bindings and its top-level assignments and `def`s, in source order.
`send_from_directory` is not among them. -/
def appGlobalNames : List String :=
  [ "Flask", "request", "jsonify", "CORS", "pickle", "pd", "np", "os",
    "app", "DATA_PATH", "MODEL_PATH", "BASE_DIR", "STATIC_DIR",
    "load_and_clean_df", "FEATURE_HELP", "bundle", "SEL", "IMPUTER",
    "SCALER", "MODEL", "health", "model_info", "predict",
    "serve_index", "serve_static_files" ]

/-- Python name resolution of a global used inside a handler body:
`none` models the `NameError` raised at call time. -/
def resolveGlobal (n : String) : Option String :=
  if n ∈ appGlobalNames then some n else none

/-- Outcome of a static route: a served file, the `index.html`
fallback, or an uncaught exception (Flask answers 500). -/
inductive StaticResp where
  | file (path : String) : StaticResp
  | indexFallback : StaticResp
  | nameError (name : String) : StaticResp
deriving DecidableEq, Repr

/-- `GET /<path>` (`serve_static_files`): if the joined path exists,
call `send_from_directory(STATIC_DIR, path)`, else call
`send_from_directory(STATIC_DIR, "index.html")`; either call first
resolves the name `send_from_directory` in the module globals. -/
def serve_static_files (fileExists : String → Bool) (path : String) : StaticResp :=
  if fileExists ("static/" ++ path) then
    match resolveGlobal "send_from_directory" with
    | some _ => .file path
    | none => .nameError "send_from_directory"
  else
    match resolveGlobal "send_from_directory" with
    | some _ => .indexFallback
    | none => .nameError "send_from_directory"

/-- `GET /` (`serve_index`): `send_from_directory(STATIC_DIR, "index.html")`,
resolving the name first. -/
def serve_index : StaticResp :=
  match resolveGlobal "send_from_directory" with
  | some _ => .file "index.html"
  | none => .nameError "send_from_directory"

/-! ## Helper lemmas about `predict` -/

theorem mem_missingOf {sel : List String} {feats : List (String × Json)} {f : String} :
    f ∈ missingOf sel feats ↔ f ∈ sel ∧ isMissingVal (feats.lookup f) = true := by
  simp [missingOf, List.mem_filter]

theorem mem_badOf {sel : List String} {feats : List (String × Json)} {f : String} :
    f ∈ badOf sel feats ↔ f ∈ sel ∧ coerceJson (feats.lookup f) = none := by
  simp only [badOf, coercedRow, List.mem_map, List.mem_filter]
  constructor
  · rintro ⟨⟨g, gv⟩, ⟨⟨f', hf', hEq⟩, hnone⟩, hfst⟩
    cases hEq
    simp only at hfst hnone
    subst hfst
    exact ⟨hf', Option.isNone_iff_eq_none.mp hnone⟩
  · rintro ⟨hf, hnone⟩
    exact ⟨(f, coerceJson (feats.lookup f)), ⟨⟨f, hf, rfl⟩, by simp [hnone]⟩, rfl⟩

theorem predict_missing_eq (b : Bundle) (feats : List (String × Json))
    (h : ∃ f ∈ b.selected_features, isMissingVal (feats.lookup f) = true) :
    predict b (.withFeatures feats)
      = .missingFeatures (missingOf b.selected_features feats) := by
  obtain ⟨f, hf, hm⟩ := h
  have hne : missingOf b.selected_features feats ≠ [] := by
    intro h0
    have hmem := mem_missingOf.mpr ⟨hf, hm⟩
    rw [h0] at hmem
    simp at hmem
  simp only [predict, extractFeats]
  rw [if_neg (fun hemp => hne (List.isEmpty_iff.mp hemp))]

theorem missingOf_eq_nil (sel : List String) (feats : List (String × Json))
    (hnomiss : ∀ f ∈ sel, isMissingVal (feats.lookup f) = false) :
    missingOf sel feats = [] :=
  List.filter_eq_nil_iff.mpr (fun f hf => by simp [hnomiss f hf])

theorem predict_invalid_eq (b : Bundle) (feats : List (String × Json))
    (hnomiss : ∀ f ∈ b.selected_features, isMissingVal (feats.lookup f) = false)
    (hbad : badOf b.selected_features feats ≠ []) :
    predict b (.withFeatures feats)
      = .invalidValues (badOf b.selected_features feats) := by
  have hm := missingOf_eq_nil b.selected_features feats hnomiss
  simp only [predict, extractFeats]
  rw [if_pos (by simp [hm]), if_neg (fun hemp => hbad (List.isEmpty_iff.mp hemp))]

theorem predict_ok_eq (b : Bundle) (feats : List (String × Json))
    (hnomiss : ∀ f ∈ b.selected_features, isMissingVal (feats.lookup f) = false)
    (hbadnil : badOf b.selected_features feats = []) :
    predict b (.withFeatures feats)
      = .ok (b.model (b.scaler (b.imputer (rowVals b.selected_features feats))))
          (if b.model (b.scaler (b.imputer (rowVals b.selected_features feats))) = 1
            then "Malignant" else "Benign")
          b.selected_features := by
  have hm := missingOf_eq_nil b.selected_features feats hnomiss
  simp only [predict, extractFeats]
  rw [if_pos (by simp [hm]), if_pos (by simp [hbadnil])]

/-! ## Claim theorems about `predict` -/

/-- C1: for every feature map containing every required feature of the
bundle with a numeric value, `predict` succeeds with a 200 response
whose prediction is one of {0, 1} (the classifier being binary, per the
bundle's contract), whose label is "Malignant" exactly when the
prediction is 1 and "Benign" when it is 0, and whose `used_features` is
the bundle's required feature list in its defined order. -/
theorem predict_valid_ok (b : Bundle) (feats : List (String × Json))
    (hbin : ∀ v : List Rat, b.model v = 0 ∨ b.model v = 1)
    (hvalid : ∀ f ∈ b.selected_features, ∃ q : Rat, feats.lookup f = some (.num q)) :
    ∃ p : Int,
      predict b (.withFeatures feats)
        = .ok p (if p = 1 then "Malignant" else "Benign") b.selected_features
      ∧ (p = 0 ∨ p = 1)
      ∧ (predict b (.withFeatures feats)).status = 200 := by
  have hnomiss : ∀ f ∈ b.selected_features, isMissingVal (feats.lookup f) = false := by
    intro f hf
    obtain ⟨q, hq⟩ := hvalid f hf
    rw [hq]
    rfl
  have hbadnil : badOf b.selected_features feats = [] := by
    by_contra hne
    obtain ⟨f, hf⟩ := List.exists_mem_of_ne_nil _ hne
    obtain ⟨hfsel, hfnone⟩ := mem_badOf.mp hf
    obtain ⟨q, hq⟩ := hvalid f hfsel
    rw [hq] at hfnone
    simp [coerceJson] at hfnone
  refine ⟨_, predict_ok_eq b feats hnomiss hbadnil, hbin _, ?_⟩
  rw [predict_ok_eq b feats hnomiss hbadnil]
  rfl

/-- C1 witness. -/
theorem predict_valid_ok_witness :
    ∃ p : Int,
      predict ⟨["a"], id, id, fun _ => 1⟩ (.withFeatures [("a", .num 5)])
        = .ok p (if p = 1 then "Malignant" else "Benign") ["a"]
      ∧ (p = 0 ∨ p = 1)
      ∧ (predict ⟨["a"], id, id, fun _ => 1⟩ (.withFeatures [("a", .num 5)])).status = 200 :=
  predict_valid_ok ⟨["a"], id, id, fun _ => 1⟩ [("a", .num 5)]
    (fun _ => Or.inr rfl)
    (by intro f hf; simp at hf; subst hf; exact ⟨5, rfl⟩)

/-- C2: whenever at least one required feature is absent, null or
empty-string in the input map, `predict` answers the 400
MissingFeatures error naming exactly the set of all such features,
whatever else the map holds, and no prediction is computed. -/
theorem predict_missing_reports_all (b : Bundle) (feats : List (String × Json))
    (h : ∃ f ∈ b.selected_features, isMissingVal (feats.lookup f) = true) :
    ∃ ms, predict b (.withFeatures feats) = .missingFeatures ms
      ∧ (∀ f, f ∈ ms ↔ f ∈ b.selected_features ∧ isMissingVal (feats.lookup f) = true)
      ∧ (predict b (.withFeatures feats)).status = 400 := by
  refine ⟨_, predict_missing_eq b feats h, fun f => mem_missingOf, ?_⟩
  rw [predict_missing_eq b feats h]
  rfl

/-- C2 witness. -/
theorem predict_missing_reports_all_witness :
    ∃ ms, predict ⟨["a", "b"], id, id, fun _ => 0⟩
            (.withFeatures [("b", .str "")]) = .missingFeatures ms
      ∧ (∀ f, f ∈ ms ↔ f ∈ (["a", "b"] : List String)
          ∧ isMissingVal (List.lookup f [("b", Json.str "")]) = true)
      ∧ (predict ⟨["a", "b"], id, id, fun _ => 0⟩
          (.withFeatures [("b", .str "")])).status = 400 :=
  predict_missing_reports_all ⟨["a", "b"], id, id, fun _ => 0⟩ [("b", .str "")]
    ⟨"a", by simp, rfl⟩

/-- C3: when every required feature is present and non-empty but at
least one fails numeric coercion, `predict` answers the 400
InvalidValues error naming exactly the set of all features whose value
fails coercion; and the coercion check runs only after the missing
check passes — any input with a missing required feature gets the
MissingFeatures error instead. -/
theorem predict_invalid_reports_all (b : Bundle) (feats : List (String × Json))
    (hnomiss : ∀ f ∈ b.selected_features, isMissingVal (feats.lookup f) = false)
    (hbad : ∃ f ∈ b.selected_features, coerceJson (feats.lookup f) = none) :
    ∃ bs, predict b (.withFeatures feats) = .invalidValues bs
      ∧ (∀ f, f ∈ bs ↔ f ∈ b.selected_features ∧ coerceJson (feats.lookup f) = none)
      ∧ (predict b (.withFeatures feats)).status = 400
      ∧ (∀ g : List (String × Json),
          (∃ f ∈ b.selected_features, isMissingVal (g.lookup f) = true) →
          ∃ ms, predict b (.withFeatures g) = .missingFeatures ms) := by
  have hbadne : badOf b.selected_features feats ≠ [] := by
    obtain ⟨f, hf, hn⟩ := hbad
    intro h0
    have hmem := mem_badOf.mpr ⟨hf, hn⟩
    rw [h0] at hmem
    simp at hmem
  refine ⟨_, predict_invalid_eq b feats hnomiss hbadne, fun f => mem_badOf, ?_, ?_⟩
  · rw [predict_invalid_eq b feats hnomiss hbadne]
    rfl
  · intro g hg
    exact ⟨_, predict_missing_eq b g hg⟩

/-- C3 witness. -/
theorem predict_invalid_reports_all_witness :
    ∃ bs, predict ⟨["a", "b"], id, id, fun _ => 0⟩
            (.withFeatures [("a", .str "abc"), ("b", .num 3)]) = .invalidValues bs
      ∧ (∀ f, f ∈ bs ↔ f ∈ (["a", "b"] : List String)
          ∧ coerceJson (List.lookup f [("a", Json.str "abc"), ("b", Json.num 3)]) = none)
      ∧ (predict ⟨["a", "b"], id, id, fun _ => 0⟩
          (.withFeatures [("a", .str "abc"), ("b", .num 3)])).status = 400
      ∧ (∀ g : List (String × Json),
          (∃ f ∈ (["a", "b"] : List String), isMissingVal (g.lookup f) = true) →
          ∃ ms, predict ⟨["a", "b"], id, id, fun _ => 0⟩
            (.withFeatures g) = .missingFeatures ms) :=
  predict_invalid_reports_all ⟨["a", "b"], id, id, fun _ => 0⟩
    [("a", .str "abc"), ("b", .num 3)]
    (by intro f hf; simp at hf; rcases hf with rfl | rfl <;> decide)
    ⟨"a", by simp, by decide⟩

/-- C9: an absent or unparseable body, or a body without a `features`
key, is handled exactly as an all-missing feature map — a structured
400 MissingFeatures error naming every required feature — and a JSON
`null` value for a required feature likewise counts as missing; no
branch escapes as an unhandled failure. -/
theorem predict_degenerate_body_missing (b : Bundle)
    (hne : b.selected_features ≠ []) :
    predict b .absent = .missingFeatures b.selected_features
    ∧ predict b .noFeatures = .missingFeatures b.selected_features
    ∧ (predict b .absent).status = 400
    ∧ (∀ feats : List (String × Json), ∀ f ∈ b.selected_features,
        feats.lookup f = some .null →
        ∃ ms, predict b (.withFeatures feats) = .missingFeatures ms ∧ f ∈ ms) := by
  have hall : missingOf b.selected_features ([] : List (String × Json))
      = b.selected_features := by
    simp [missingOf, isMissingVal]
  have habs : predict b .absent = .missingFeatures b.selected_features := by
    simp only [predict, extractFeats]
    rw [if_neg (fun hemp => hne (by rwa [List.isEmpty_iff, hall] at hemp)), hall]
  have hnof : predict b .noFeatures = .missingFeatures b.selected_features := by
    simp only [predict, extractFeats]
    rw [if_neg (fun hemp => hne (by rwa [List.isEmpty_iff, hall] at hemp)), hall]
  refine ⟨habs, hnof, by rw [habs]; rfl, ?_⟩
  intro feats f hf hnull
  have hmiss : isMissingVal (feats.lookup f) = true := by rw [hnull]; rfl
  exact ⟨_, predict_missing_eq b feats ⟨f, hf, hmiss⟩,
    mem_missingOf.mpr ⟨hf, hmiss⟩⟩

/-- C9 witness. -/
theorem predict_degenerate_body_missing_witness :
    predict ⟨["a"], id, id, fun _ => 0⟩ .absent = .missingFeatures ["a"]
    ∧ predict ⟨["a"], id, id, fun _ => 0⟩ .noFeatures = .missingFeatures ["a"]
    ∧ (predict ⟨["a"], id, id, fun _ => 0⟩ .absent).status = 400
    ∧ (∀ feats : List (String × Json), ∀ f ∈ (["a"] : List String),
        feats.lookup f = some .null →
        ∃ ms, predict ⟨["a"], id, id, fun _ => 0⟩
          (.withFeatures feats) = .missingFeatures ms ∧ f ∈ ms) :=
  predict_degenerate_body_missing ⟨["a"], id, id, fun _ => 0⟩ (by simp)

/-- C10: whenever `predict` answers 200, its label is "Malignant" if
and only if the integer prediction equals 1; every other prediction
value — not only 0 — is labelled "Benign". -/
theorem predict_label_iff_one (b : Bundle) (body : Body)
    (p : Int) (lbl : String) (used : List String)
    (h : predict b body = .ok p lbl used) :
    (lbl = "Malignant" ↔ p = 1) ∧ (p ≠ 1 → lbl = "Benign") := by
  simp only [predict] at h
  split at h
  · split at h
    · rw [PredictResult.ok.injEq] at h
      obtain ⟨hp, hl, -⟩ := h
      rw [← hl, hp]
      by_cases h1 : p = 1
      · simp [h1]
      · simp [h1]
    · exact absurd h (by simp)
  · exact absurd h (by simp)

/-- C10 witness. -/
theorem predict_label_iff_one_witness :
    (("Benign" : String) = "Malignant" ↔ (7 : Int) = 1) ∧ ((7 : Int) ≠ 1 → ("Benign" : String) = "Benign") :=
  predict_label_iff_one ⟨["a"], id, id, fun _ => 7⟩
    (.withFeatures [("a", .num 5)]) 7 "Benign" ["a"] (by decide)

/-! ## Claim theorems about the other routes -/

/-- C8: every `GET /health` request answers 200 with
`{"status": "ok"}`, whatever the bundle and dataset are. -/
theorem health_always_ok (b : Bundle) (df : Table) :
    health b df = (200, [("status", "ok")]) := rfl

/-- C4 (code bug): both static routes reference `send_from_directory`,
a name `app.py` never imports or defines, so every request — whether
the file exists or not, including `GET /` — raises `NameError` instead
of serving the file or the `index.html` fallback. -/
theorem static_routes_name_error (fileExists : String → Bool) (path : String) :
    serve_static_files fileExists path = .nameError "send_from_directory"
    ∧ serve_index = .nameError "send_from_directory" := by
  have hres : resolveGlobal "send_from_directory" = none := by decide
  constructor
  · simp only [serve_static_files, hres]
    split <;> rfl
  · simp only [serve_index, hres]

/-! ## Helper lemmas about `mapMO`, `lookup` and the loader -/

theorem mapMO_forall_mem {α β : Type} (g : α → Option β) :
    ∀ {l : List α} {l' : List β}, mapMO g l = some l' →
      ∀ b ∈ l', ∃ a ∈ l, g a = some b := by
  intro l
  induction l with
  | nil => intro l' h b hb; simp [mapMO] at h; subst h; simp at hb
  | cons a as ih =>
    intro l' h b hb
    simp only [mapMO] at h
    cases hga : g a with
    | none => rw [hga] at h; simp at h
    | some b0 =>
      rw [hga] at h
      cases hrest : mapMO g as with
      | none => rw [hrest] at h; simp at h
      | some bs =>
        rw [hrest] at h
        simp only [Option.some.injEq] at h
        subst h
        rcases List.mem_cons.mp hb with rfl | hb
        · exact ⟨a, List.mem_cons_self a as, hga⟩
        · obtain ⟨a', ha', hga'⟩ := ih hrest b hb
          exact ⟨a', List.mem_cons_of_mem a ha', hga'⟩

theorem mapMO_mem_of_mem {α β : Type} (g : α → Option β) :
    ∀ {l : List α} {l' : List β}, mapMO g l = some l' →
      ∀ a ∈ l, ∃ b ∈ l', g a = some b := by
  intro l
  induction l with
  | nil => intro l' h a ha; simp at ha
  | cons a0 as ih =>
    intro l' h a ha
    simp only [mapMO] at h
    cases hga : g a0 with
    | none => rw [hga] at h; simp at h
    | some b0 =>
      rw [hga] at h
      cases hrest : mapMO g as with
      | none => rw [hrest] at h; simp at h
      | some bs =>
        rw [hrest] at h
        simp only [Option.some.injEq] at h
        subst h
        rcases List.mem_cons.mp ha with rfl | ha
        · exact ⟨b0, List.mem_cons_self b0 bs, hga⟩
        · obtain ⟨b, hb, hgb⟩ := ih hrest a ha
          exact ⟨b, List.mem_cons_of_mem b0 hb, hgb⟩

theorem lookup_isSome_of_mem {β : Type} {l : List (String × β)} {a : String} {b : β}
    (h : (a, b) ∈ l) : (l.lookup a).isSome := by
  induction l with
  | nil => simp at h
  | cons p rest ih =>
    obtain ⟨k, v⟩ := p
    rcases List.mem_cons.mp h with heq | hmem
    · rw [Prod.mk.injEq] at heq
      obtain ⟨rfl, rfl⟩ := heq
      simp [List.lookup]
    · simp only [List.lookup]
      cases hak : a == k
      · exact ih hmem
      · simp

theorem mem_of_lookup_eq_some {β : Type} {l : List (String × β)} {a : String} {b : β}
    (h : l.lookup a = some b) : (a, b) ∈ l := by
  induction l with
  | nil => simp [List.lookup] at h
  | cons p rest ih =>
    obtain ⟨k, v⟩ := p
    simp only [List.lookup] at h
    cases hak : a == k
    · rw [hak] at h
      exact List.mem_cons_of_mem _ (ih h)
    · rw [hak] at h
      simp only [Option.some.injEq] at h
      subst h
      have : a = k := eq_of_beq hak
      subst this
      exact List.mem_cons_self _ _

/-- C7: the loader, when it returns, changes exactly two things: the
`bare_nuclei` column goes through sentinel-to-NaN replacement followed
by numeric coercion, and any `ID` column is removed; every other column
is returned with all of its cells unaltered, and no column appears that
was not in the input. -/
theorem load_and_clean_df_frame (df out : Table)
    (h : load_and_clean_df df = some out) :
    (∀ p ∈ df, p.1 ≠ "bare_nuclei" → p.1 ≠ "ID" → p ∈ out)
    ∧ (∀ p ∈ out, p.1 = "bare_nuclei" ∨ p ∈ df)
    ∧ (∀ p ∈ out, p.1 ≠ "ID")
    ∧ (∀ cs, ("bare_nuclei", cs) ∈ df →
        ∃ cs', ("bare_nuclei", cs') ∈ out ∧ cleanBareNuclei cs = some cs') := by
  simp only [load_and_clean_df] at h
  cases hmap : mapMO cleanColumn df with
  | none => rw [hmap] at h; simp at h
  | some df1 =>
    rw [hmap] at h
    simp only [Option.some.injEq] at h
    subst h
    have hout_sub : ∀ p, p ∈ (if hasCol df1 "ID" then dropCol df1 "ID" else df1) → p ∈ df1 := by
      intro p hp
      split at hp
      · exact (List.mem_filter.mp hp).1
      · exact hp
    refine ⟨?_, ?_, ?_, ?_⟩
    · intro p hp hbare hid
      obtain ⟨q, hq, hgq⟩ := mapMO_mem_of_mem cleanColumn hmap p hp
      rw [cleanColumn, if_neg hbare] at hgq
      simp only [Option.some.injEq] at hgq
      subst hgq
      split
      · exact List.mem_filter.mpr ⟨hq, by simpa using hid⟩
      · exact hq
    · intro p hp
      obtain ⟨a, ha, hga⟩ := mapMO_forall_mem cleanColumn hmap p (hout_sub p hp)
      by_cases hbare : a.1 = "bare_nuclei"
      · left
        rw [cleanColumn, if_pos hbare] at hga
        cases hcs : cleanBareNuclei a.2 with
        | none => rw [hcs] at hga; simp at hga
        | some cs' =>
          rw [hcs] at hga
          simp only [Option.map_some', Option.some.injEq] at hga
          subst hga
          exact hbare
      · right
        rw [cleanColumn, if_neg hbare] at hga
        simp only [Option.some.injEq] at hga
        subst hga
        exact ha
    · intro p hp hid
      by_cases hhas : hasCol df1 "ID"
      · rw [if_pos hhas] at hp
        have := (List.mem_filter.mp hp).2
        simp [hid] at this
      · rw [if_neg hhas] at hp
        apply hhas
        have : ("ID", p.2) ∈ df1 := by
          have hpp : p = ("ID", p.2) := by
            cases p
            simp_all
          rwa [hpp] at hp
        exact lookup_isSome_of_mem this
    · intro cs hcs
      obtain ⟨q, hq, hgq⟩ := mapMO_mem_of_mem cleanColumn hmap ("bare_nuclei", cs) hcs
      rw [cleanColumn] at hgq
      simp only [if_pos] at hgq
      cases hclean : cleanBareNuclei cs with
      | none => rw [hclean] at hgq; simp at hgq
      | some cs' =>
        rw [hclean] at hgq
        simp only [Option.map_some', Option.some.injEq] at hgq
        subst hgq
        refine ⟨cs', ?_, rfl⟩
        split
        · exact List.mem_filter.mpr ⟨hq, by simp⟩
        · exact hq

/-- C7 witness. -/
theorem load_and_clean_df_frame_witness :
    (∀ p ∈ ([("ID", [Cell.num 1]), ("bare_nuclei", [Cell.str "?"]),
        ("x", [Cell.num 9])] : Table),
      p.1 ≠ "bare_nuclei" → p.1 ≠ "ID" →
        p ∈ ([("bare_nuclei", [Cell.na]), ("x", [Cell.num 9])] : Table))
    ∧ (∀ p ∈ ([("bare_nuclei", [Cell.na]), ("x", [Cell.num 9])] : Table),
        p.1 = "bare_nuclei" ∨ p ∈ ([("ID", [Cell.num 1]),
          ("bare_nuclei", [Cell.str "?"]), ("x", [Cell.num 9])] : Table))
    ∧ (∀ p ∈ ([("bare_nuclei", [Cell.na]), ("x", [Cell.num 9])] : Table), p.1 ≠ "ID")
    ∧ (∀ cs, ("bare_nuclei", cs) ∈ ([("ID", [Cell.num 1]),
          ("bare_nuclei", [Cell.str "?"]), ("x", [Cell.num 9])] : Table) →
        ∃ cs', ("bare_nuclei", cs') ∈ ([("bare_nuclei", [Cell.na]),
          ("x", [Cell.num 9])] : Table) ∧ cleanBareNuclei cs = some cs') :=
  load_and_clean_df_frame
    [("ID", [Cell.num 1]), ("bare_nuclei", [Cell.str "?"]), ("x", [Cell.num 9])]
    [("bare_nuclei", [Cell.na]), ("x", [Cell.num 9])]
    (by decide)

/-! ## Helper lemmas about `median`, `imputeCol`, `pdMin`/`pdMax` -/

theorem length_insertSorted (x : Rat) (l : List Rat) :
    (insertSorted x l).length = l.length + 1 := by
  induction l with
  | nil => rfl
  | cons y ys ih =>
    simp only [insertSorted]
    split
    · rfl
    · simp [ih]

theorem length_sortRats (xs : List Rat) : (sortRats xs).length = xs.length := by
  induction xs with
  | nil => rfl
  | cons x l ih =>
    simp only [sortRats, List.foldr_cons] at *
    rw [length_insertSorted, ih]
    simp

theorem median_isSome (xs : List Rat) (h : xs ≠ []) : (median xs).isSome := by
  have hn : (sortRats xs).length ≠ 0 := by
    rw [length_sortRats]
    simpa using h
  have hget : ∀ i, i < (sortRats xs).length → ((sortRats xs).get? i).isSome := by
    intro i hi
    rw [Option.isSome_iff_ne_none]
    intro hnone
    rw [List.get?_eq_none] at hnone
    omega
  simp only [median]
  rw [if_neg hn]
  split
  · exact hget _ (by omega)
  · have h1 := hget ((sortRats xs).length / 2 - 1) (by omega)
    have h2 := hget ((sortRats xs).length / 2) (by omega)
    obtain ⟨a, ha⟩ := Option.isSome_iff_exists.mp h1
    obtain ⟨b, hb⟩ := Option.isSome_iff_exists.mp h2
    rw [ha, hb]
    rfl

theorem imputeCol_all_some (cs : List Cell)
    (h : ∃ c ∈ cs, (coerceCell c).isSome = true) :
    ∀ o ∈ imputeCol cs, o.isSome = true := by
  obtain ⟨c, hc, hcs⟩ := h
  obtain ⟨v, hv⟩ := Option.isSome_iff_exists.mp hcs
  have hvmem : v ∈ (cs.map coerceCell).filterMap id := by
    rw [List.mem_filterMap]
    refine ⟨some v, ?_, rfl⟩
    rw [← hv]
    exact List.mem_map_of_mem coerceCell hc
  have hmedne : (cs.map coerceCell).filterMap id ≠ [] :=
    List.ne_nil_of_mem hvmem
  obtain ⟨m, hm⟩ := Option.isSome_iff_exists.mp (median_isSome _ hmedne)
  intro o ho
  simp only [imputeCol] at ho
  rw [List.mem_map] at ho
  obtain ⟨w, -, hw⟩ := ho
  cases w with
  | some q => rw [← hw]; rfl
  | none =>
    rw [← hw]
    simp only [fillNaCell, hm]
    rfl

theorem filterMap_id_eq_nil_iff {l : List (Option Rat)} :
    l.filterMap id = [] ↔ ∀ o ∈ l, o = none := by
  constructor
  · intro h o ho
    cases o with
    | none => rfl
    | some v =>
      exfalso
      have : v ∈ l.filterMap id := List.mem_filterMap.mpr ⟨some v, ho, rfl⟩
      rw [h] at this
      simp at this
  · intro h
    induction l with
    | nil => rfl
    | cons o rest ih =>
      have ho := h o (List.mem_cons_self o rest)
      subst ho
      simp only [List.filterMap_cons]
      exact ih (fun o hmem => h o (List.mem_cons_of_mem _ hmem))

theorem foldl_min_le_foldl_max :
    ∀ (l : List Rat) (a b : Rat), a ≤ b → l.foldl min a ≤ l.foldl max b := by
  intro l
  induction l with
  | nil => intro a b h; exact h
  | cons x xs ih =>
    intro a b h
    simp only [List.foldl_cons]
    exact ih (min a x) (max b x)
      (le_trans (min_le_left a x) (le_trans h (le_max_left b x)))

theorem pdMin_le_pdMax (xs : List (Option Rat)) (h : xs.filterMap id ≠ []) :
    ∃ lo hi, pdMin xs = some lo ∧ pdMax xs = some hi ∧ lo ≤ hi := by
  simp only [pdMin, pdMax]
  cases hv : xs.filterMap id with
  | nil => exact absurd hv h
  | cons v vs =>
    exact ⟨vs.foldl min v, vs.foldl max v, rfl, rfl,
      foldl_min_le_foldl_max vs v v le_rfl⟩

/-! ## Claim theorems about `model_info` -/

/-- C5: in every successful `model-info` response over a dataset whose
selected columns each hold at least one numerically coercible cell,
every entry of `ranges` has finite (non-NaN) bounds with
`min ≤ max`, the bounds being taken over the imputed selected-feature
subset. -/
theorem model_info_ranges_min_le_max (sel : List String) (df : Table)
    (info : ModelInfo) (h : model_info sel df = some info)
    (hdata : ∀ p ∈ dropCol df "class", ∃ c ∈ p.2, (coerceCell c).isSome = true) :
    ∀ f lohi, (f, lohi) ∈ info.ranges →
      ∃ lo hi, lohi = (some lo, some hi) ∧ lo ≤ hi := by
  simp only [model_info] at h
  split at h
  · exact absurd h (by simp)
  · rename_i clsCol hcls
    split at h
    · exact absurd h (by simp)
    · rename_i selCols hsel
      split at h
      case _ i0 i1 hi0 hi1 =>
        rw [Option.some.injEq] at h
        subst h
        intro f lohi hmem
        dsimp only at hmem
        rw [List.mem_map] at hmem
        obtain ⟨q, hq, heq2⟩ := hmem
        rw [List.mem_map] at hq
        obtain ⟨r, hr, rfl⟩ := hq
        rw [Prod.mk.injEq] at heq2
        obtain ⟨rfl, rfl⟩ := heq2
        have hlook : (dropCol df "class").lookup r.1 = some r.2 := by
          obtain ⟨f', hf', hgf⟩ := mapMO_forall_mem _ hsel r hr
          cases hl : (dropCol df "class").lookup f' with
          | none => rw [hl] at hgf; simp at hgf
          | some cs =>
            rw [hl] at hgf
            simp only [Option.map_some', Option.some.injEq] at hgf
            rw [← hgf]
            exact hl
        have hex : ∃ c ∈ r.2, (coerceCell c).isSome = true :=
          hdata _ (mem_of_lookup_eq_some hlook)
        have hallsome := imputeCol_all_some r.2 hex
        have hne : (imputeCol r.2).filterMap id ≠ [] := by
          intro h0
          rw [filterMap_id_eq_nil_iff] at h0
          obtain ⟨c, hc, hcs⟩ := hex
          have hmem2 : fillNaCell (median ((r.2.map coerceCell).filterMap id))
              (coerceCell c) ∈ imputeCol r.2 := by
            simp only [imputeCol]
            exact List.mem_map_of_mem _ (List.mem_map_of_mem coerceCell hc)
          have hsome := hallsome _ hmem2
          have hnone := h0 _ hmem2
          rw [hnone] at hsome
          simp at hsome
        obtain ⟨lo, hi, hmin, hmax, hle⟩ := pdMin_le_pdMax _ hne
        exact ⟨lo, hi, by rw [hmin, hmax], hle⟩
      all_goals exact absurd h (by simp)

/-- C5 witness. -/
theorem model_info_ranges_min_le_max_witness :
    ∃ lo hi : Rat, ((some 1, some 9) : Option Rat × Option Rat) = (some lo, some hi)
      ∧ lo ≤ hi :=
  model_info_ranges_min_le_max ["a"]
    [("class", [Cell.num 2, Cell.num 4]), ("a", [Cell.num 1, Cell.num 9])]
    { selected_features := ["a"]
      ranges := [("a", (some 1, some 9))]
      presets :=
        [ ("benign_typical", [("a", some 1)]),
          ("malignant_typical", [("a", some 9)]),
          ("benign_sample", [("a", some 1)]),
          ("malignant_sample", [("a", some 9)]) ]
      labels := [("a", "A")]
      helptext := [("a", "Value from 1-10.")] }
    (by decide) (by decide) "a" (some 1, some 9) (by decide)

/-- C6: `model-info` is deterministic — two calls over the same dataset
contents (and the same bundle feature list) return identical `ranges`
and identical `presets`, the seeded sample rows included, because every
part of the computation, the seed-42 draw among them, is a function of
the dataset alone. -/
theorem model_info_deterministic (sel : List String) (df₁ df₂ : Table)
    (h : df₁ = df₂) :
    (model_info sel df₁).map ModelInfo.ranges
        = (model_info sel df₂).map ModelInfo.ranges
    ∧ (model_info sel df₁).map ModelInfo.presets
        = (model_info sel df₂).map ModelInfo.presets := by
  subst h
  exact ⟨rfl, rfl⟩

/-- C6 witness. -/
theorem model_info_deterministic_witness :
    (model_info ["a"] [("class", [Cell.num 2, Cell.num 4]),
        ("a", [Cell.num 1, Cell.num 9])]).map ModelInfo.ranges
      = (model_info ["a"] [("class", [Cell.num 2, Cell.num 4]),
        ("a", [Cell.num 1, Cell.num 9])]).map ModelInfo.ranges
    ∧ (model_info ["a"] [("class", [Cell.num 2, Cell.num 4]),
        ("a", [Cell.num 1, Cell.num 9])]).map ModelInfo.presets
      = (model_info ["a"] [("class", [Cell.num 2, Cell.num 4]),
        ("a", [Cell.num 1, Cell.num 9])]).map ModelInfo.presets :=
  model_info_deterministic ["a"]
    [("class", [Cell.num 2, Cell.num 4]), ("a", [Cell.num 1, Cell.num 9])]
    [("class", [Cell.num 2, Cell.num 4]), ("a", [Cell.num 1, Cell.num 9])] rfl

end App
